import Mathlib

/-!
Verification of the VKExample core (src/main.cpp): the Capability
Negotiator (physical-device selection, queue-family scan, surface
configuration) and the Frame Scheduler (the render loop with
MAX_FRAMES_IN_FLIGHT frame slots and the imagesInFlight cross-wait).

Vulkan handles and enum values are embedded as Nat with the numeric
values of the C headers; driver-supplied data (extension lists, queue
family properties, surface capabilities) become explicit fields of a
device record, and the loops of main.cpp become structural recursions
or folds over those lists.
-/

namespace VKExample

/-! ### Constants from src/main.cpp -/

/-- `constexpr int WINDOW_WIDTH = 800;` (main.cpp:69). -/
def WINDOW_WIDTH : Nat := 800

/-- `constexpr int WINDOW_HEIGHT = 800;` (main.cpp:73). -/
def WINDOW_HEIGHT : Nat := 800

/-- `const int MAX_FRAMES_IN_FLIGHT = 5;` (main.cpp:81). -/
def MAX_FRAMES_IN_FLIGHT : Nat := 5

/-- `UINT32_MAX`, the sentinel the surface reports in
`currentExtent.width` when any size is accepted (main.cpp:594). -/
def UINT32_MAX : Nat := 4294967295

/-- `VK_PRESENT_MODE_IMMEDIATE_KHR = 0` from the Vulkan headers. -/
def VK_PRESENT_MODE_IMMEDIATE_KHR : Nat := 0

/-- `VK_PRESENT_MODE_MAILBOX_KHR = 1` from the Vulkan headers. -/
def VK_PRESENT_MODE_MAILBOX_KHR : Nat := 1

/-- `VK_PRESENT_MODE_FIFO_KHR = 2` from the Vulkan headers. -/
def VK_PRESENT_MODE_FIFO_KHR : Nat := 2

/-- `VK_FORMAT_UNDEFINED = 0` from the Vulkan headers. -/
def VK_FORMAT_UNDEFINED : Nat := 0

/-- `VK_FORMAT_D32_SFLOAT = 126` from the Vulkan headers. -/
def VK_FORMAT_D32_SFLOAT : Nat := 126

/-- `VK_FORMAT_D32_SFLOAT_S8_UINT = 130` from the Vulkan headers. -/
def VK_FORMAT_D32_SFLOAT_S8_UINT : Nat := 130

/-- `VK_FORMAT_D24_UNORM_S8_UINT = 129` from the Vulkan headers. -/
def VK_FORMAT_D24_UNORM_S8_UINT : Nat := 129

/-! ### Data supplied by the driver, per physical device -/

/-- One `VkQueueFamilyProperties` entry together with the result of
`vkGetPhysicalDeviceSurfaceSupportKHR` for that family index:
`supportsGraphics` is `queueFamily.queueFlags & VK_QUEUE_GRAPHICS_BIT`
(main.cpp:402) and `presentSupport` is the boolean written by
`vkGetPhysicalDeviceSurfaceSupportKHR` (main.cpp:409-410). -/
structure QueueFamilyProps where
  supportsGraphics : Bool
  presentSupport : Bool
deriving DecidableEq, Repr

/-- A `VkSurfaceFormatKHR` entry: a pixel format and a color space. -/
structure SurfaceFormat where
  format : Nat
  colorSpace : Nat
deriving DecidableEq, Repr

/-- Everything the selection loop of main.cpp:367-469 queries about one
physical device: its supported extensions, its queue families (with
per-family surface support), the surface formats and present modes it
reports, and the set of formats whose `optimalTilingFeatures` contain
`VK_FORMAT_FEATURE_DEPTH_STENCIL_ATTACHMENT_BIT` (main.cpp:452-458). -/
structure PhysDevice where
  availableExtensions : List String
  queueFamilies : List QueueFamilyProps
  formats : List SurfaceFormat
  presentModes : List Nat
  depthBitFormats : List Nat
deriving DecidableEq, Repr

/-- The `QueueFamilyIndices` structure of main.cpp: `std::optional`
indices for the graphics family and the present family. -/
structure QueueFamilyIndices where
  graphicsFamily : Option Nat
  presentFamily : Option Nat
deriving DecidableEq, Repr

/-! ### Queue family scan (main.cpp:396-414)

The loop `for (uint32_t i = 0; i < vkQueueFamilyCount; i++)` assigns
`graphicsFamily = i` on every family with the graphics bit and
`presentFamily = i` on every family with present support, without
breaking and without checking whether the field already holds a value,
so each recorded index is overwritten by later matches. -/

/-- One loop iteration of main.cpp:397-414 at index `i`: overwrite
`graphicsFamily` when the family has the graphics bit (main.cpp:402-404),
then overwrite `presentFamily` when it has present support
(main.cpp:409-413). -/
def scanStep (acc : QueueFamilyIndices) (i : Nat) (qf : QueueFamilyProps) :
    QueueFamilyIndices :=
  let acc1 :=
    if qf.supportsGraphics then { acc with graphicsFamily := some i } else acc
  if qf.presentSupport then { acc1 with presentFamily := some i } else acc1

/-- The whole scan loop of main.cpp:396-414, starting from the
default-constructed `QueueFamilyIndices` (both fields unset). -/
def scanQueueFamilies (fams : List QueueFamilyProps) : QueueFamilyIndices :=
  fams.enum.foldl (fun acc p => scanStep acc p.1 p.2) ⟨none, none⟩

/-! ### Depth format selection (main.cpp:444-460) -/

/-- `std::vector<VkFormat> depthFormatCandidates = {...}` (main.cpp:446-450). -/
def depthFormatCandidates : List Nat :=
  [VK_FORMAT_D32_SFLOAT, VK_FORMAT_D32_SFLOAT_S8_UINT, VK_FORMAT_D24_UNORM_S8_UINT]

/-- The loop of main.cpp:452-458: walk the candidate list in order and
keep the first format whose optimal-tiling features include the
depth-stencil-attachment bit; `VK_FORMAT_UNDEFINED` when none does. -/
def selectDepthFormat (dev : PhysDevice) : List Nat → Nat
  | [] => VK_FORMAT_UNDEFINED
  | f :: rest =>
      if dev.depthBitFormats.contains f then f else selectDepthFormat dev rest

/-! ### Device suitability and first-fit selection (main.cpp:367-469) -/

/-- main.cpp:383-387: build the set of required extensions, erase every
available one, and test emptiness — i.e. every required extension is
in the device's supported list. -/
def allExtensionsAvailable (required : List String) (dev : PhysDevice) : Bool :=
  required.all (fun e => dev.availableExtensions.contains e)

/-- main.cpp:415-416: both queue family indices received a value. -/
def queuesOk (dev : PhysDevice) : Bool :=
  (scanQueueFamilies dev.queueFamilies).graphicsFamily.isSome &&
  (scanQueueFamilies dev.queueFamilies).presentFamily.isSome

/-- main.cpp:418-442: the swap-chain details are only queried when all
extensions are available (main.cpp:423), otherwise both lists stay
empty; `swapChainOk` then requires both lists non-empty. -/
def swapChainOk (required : List String) (dev : PhysDevice) : Bool :=
  if allExtensionsAvailable required dev then
    !dev.formats.isEmpty && !dev.presentModes.isEmpty
  else
    false

/-- main.cpp:460: a depth format was found. -/
def depthFormatOk (dev : PhysDevice) : Bool :=
  selectDepthFormat dev depthFormatCandidates != VK_FORMAT_UNDEFINED

/-- The conjunction tested at main.cpp:463. -/
def isSuitable (required : List String) (dev : PhysDevice) : Bool :=
  allExtensionsAvailable required dev && queuesOk dev &&
  swapChainOk required dev && depthFormatOk dev

/-- The selection loop of main.cpp:367-469: `vkPhysicalDevice` starts as
`VK_NULL_HANDLE` and is assigned only when it is still null and the
current device is suitable (main.cpp:463), so the first suitable device
in enumeration order is kept. -/
def selectPhysicalDevice (required : List String) (devs : List PhysDevice) :
    Option PhysDevice :=
  devs.foldl
    (fun acc dev =>
      if acc.isNone && isSuitable required dev then some dev else acc)
    none

/-! ### Present mode selection (main.cpp:577-590) -/

/-- The loop body of main.cpp:579-590 with the running selection `sel`:
`VK_PRESENT_MODE_MAILBOX_KHR` is taken with an immediate break;
`VK_PRESENT_MODE_FIFO_KHR` is stored but the scan continues. -/
def selectPresentModeLoop (sel : Nat) : List Nat → Nat
  | [] => sel
  | m :: rest =>
      if m == VK_PRESENT_MODE_MAILBOX_KHR then m
      else selectPresentModeLoop
        (if m == VK_PRESENT_MODE_FIFO_KHR then m else sel) rest

/-- main.cpp:578-590: the selection is initialised to
`presentModes[0]` and then the loop runs over the whole list. -/
def selectPresentMode (modes : List Nat) : Nat :=
  selectPresentModeLoop (modes.headD 0) modes

/-! ### Extent selection (main.cpp:592-617) -/

/-- A `VkExtent2D`. -/
structure Extent2D where
  width : Nat
  height : Nat
deriving DecidableEq, Repr

/-- The fields of `VkSurfaceCapabilitiesKHR` the program reads. -/
structure SurfaceCaps where
  minImageCount : Nat
  maxImageCount : Nat
  currentExtent : Extent2D
  minImageExtent : Extent2D
  maxImageExtent : Extent2D
deriving DecidableEq, Repr

/-- main.cpp:592-617, with the requested size as a parameter (the
program instantiates it with `WINDOW_WIDTH`, `WINDOW_HEIGHT`,
main.cpp:600): when `currentExtent.width` differs from the sentinel the
surface extent is taken verbatim; otherwise each axis of the request is
clamped independently into `[minImageExtent, maxImageExtent]` via
`max(min_, min(max_, value))` (main.cpp:602-616). -/
def selectExtent (caps : SurfaceCaps) (reqW reqH : Nat) : Extent2D :=
  if caps.currentExtent.width != UINT32_MAX then
    caps.currentExtent
  else
    { width := max caps.minImageExtent.width (min caps.maxImageExtent.width reqW)
      height := max caps.minImageExtent.height (min caps.maxImageExtent.height reqH) }

/-- The extent the program itself resolves (request fixed to the window
size, main.cpp:600). -/
def selectedExtentMain (caps : SurfaceCaps) : Extent2D :=
  selectExtent caps WINDOW_WIDTH WINDOW_HEIGHT

/-! ### Swap chain image count (main.cpp:628-635) -/

/-- main.cpp:632-635: start from `minImageCount + 1`; when
`maxImageCount` is positive (zero means unbounded) and the count
exceeds it, cap it at `maxImageCount`. -/
def chooseImageCount (caps : SurfaceCaps) : Nat :=
  let c := caps.minImageCount + 1
  if caps.maxImageCount > 0 && decide (c > caps.maxImageCount) then
    caps.maxImageCount
  else c

/-! ### Validation layer availability check (main.cpp:178-196, debug mode)

The inner loop tests `if (std::strcmp(requestedLayer,
availableLayer.layerName))` — `strcmp` returns 0 exactly on equal
strings, so the nonzero result used as a truth value marks the layer
available as soon as some enumerated layer name DIFFERS from the
requested one. -/

/-- The inner loop of main.cpp:181-187: `isLayerAvailable` becomes true
iff some available layer's name differs from the requested name. -/
def layerMarkedAvailable (available : List String) (requested : String) : Bool :=
  available.any (fun l => l != requested)

/-- The outer loop of main.cpp:179-192: every requested layer must be
marked available. -/
def validationLayersAvailable (available requested : List String) : Bool :=
  requested.all (fun r => layerMarkedAvailable available r)

/-- main.cpp:193-196: `abort()` is called before instance creation iff
the check failed. -/
def validationCheckAborts (available requested : List String) : Bool :=
  !validationLayersAvailable available requested

/-! ### Frame Scheduler (main.cpp:1639-1753)

The loop state: `currentFrame` cycles over the `MAX_FRAMES_IN_FLIGHT`
frame slots; each slot owns a fence created with
`VK_FENCE_CREATE_SIGNALED_BIT` (main.cpp:1647); `imagesInFlight` has one
entry per swap-chain image, initialised to `VK_NULL_HANDLE`
(main.cpp:1651). A fence handle stored in `imagesInFlight` is identified
here by the index of the frame slot that owns it.

GPU execution is modelled by interleaved events: an `iterate` event is
one pass through the loop body (main.cpp:1673-1753) — legal only when
both blocking waits of that pass could return — and a `gpuComplete`
event is the GPU retiring the outstanding submission of one slot,
signalling that slot's fence. The uniform-buffer write of
main.cpp:1696-1700 stores, per presentation target, the elapsed-time
argument from which the payload matrices are computed (the payload is a
pure function of that time, main.cpp:1684-1694; its floating-point
matrix arithmetic is outside the model). -/

/-- `VK_FENCE_CREATE_SIGNALED_BIT = 1` from the Vulkan headers. -/
def VK_FENCE_CREATE_SIGNALED_BIT : Nat := 1

/-- `fenceInfo.flags = VK_FENCE_CREATE_SIGNALED_BIT;` (main.cpp:1647). -/
def fenceCreateFlags : Nat := VK_FENCE_CREATE_SIGNALED_BIT

/-- Whether a fence created with `fenceCreateFlags` starts signaled:
the signaled bit is set in the flags. -/
def fenceCreatedSignaled : Bool :=
  fenceCreateFlags % 2 == 1

/-- Static configuration of one run: the frame-slot count
(`MAX_FRAMES_IN_FLIGHT`) and the swap-chain image count. -/
structure SchedConfig where
  numSlots : Nat
  numImages : Nat
deriving DecidableEq, Repr

/-- One submission handed to `vkQueueSubmit` (main.cpp:1731) that the
GPU has not yet retired: the frame slot whose fence it will signal and
the presentation target its command buffer renders into. -/
structure Submission where
  slot : Nat
  image : Nat
deriving DecidableEq, Repr

/-- The scheduler state: `currentFrame` (main.cpp:1667), the iteration
counter, the signaled state of each slot's fence, the `imagesInFlight`
array (the slot owning the stored fence, or `none` for
`VK_NULL_HANDLE`), the set of submissions the GPU has not retired, and
per presentation target the elapsed time whose payload was last written
into its uniform buffer. -/
structure SchedState where
  currentFrame : Nat
  iter : Nat
  fences : List Bool
  imagesInFlight : List (Option Nat)
  outstanding : List Submission
  uniforms : List (Option Nat)
deriving DecidableEq, Repr

/-- The state after main.cpp:1644-1667: every slot fence created with
the signaled flag, `imagesInFlight` resized to the swap-chain image
count filled with `VK_NULL_HANDLE`, `currentFrame = 0`, nothing
submitted, no uniform buffer written yet. -/
def initState (cfg : SchedConfig) : SchedState :=
  { currentFrame := 0
    iter := 0
    fences := List.replicate cfg.numSlots fenceCreatedSignaled
    imagesInFlight := List.replicate cfg.numImages none
    outstanding := []
    uniforms := List.replicate cfg.numImages none }

/-- The guard of main.cpp:1702-1705: if `imagesInFlight[imageIndex]`
holds a fence, that fence must be signaled for the blocking
`vkWaitForFences` to return; a `VK_NULL_HANDLE` entry skips the wait. -/
def crossWaitOk (st : SchedState) (image : Nat) : Bool :=
  match st.imagesInFlight.getD image none with
  | none => true
  | some j => st.fences.getD j false

/-- An event of a run: one full pass of the loop body acquiring a given
image at a given elapsed time, or the GPU retiring the outstanding
submission of a slot. -/
inductive SchedEvent where
  | iterate (image : Nat) (time : Nat)
  | gpuComplete (slot : Nat)
deriving DecidableEq, Repr

/-- One event. `iterate image time` performs main.cpp:1673-1752: it
requires the image index to be a valid acquisition result, the throttle
wait on `inFlightFences[currentFrame]` (main.cpp:1678) to return, and
the cross-wait (main.cpp:1702-1705) to return; it then writes the
uniform payload of `time` into `uniformBuffersMemory[imageIndex]`
(main.cpp:1696-1700), claims `imagesInFlight[imageIndex] =
inFlightFences[currentFrame]` (main.cpp:1708), resets the slot's fence
(main.cpp:1728), submits (main.cpp:1731) and advances `currentFrame`
modulo `MAX_FRAMES_IN_FLIGHT` (main.cpp:1752). `gpuComplete slot`
retires that slot's outstanding submission and signals its fence.
`none` means the event cannot happen from this state. -/
def stepEvent (cfg : SchedConfig) (st : SchedState) :
    SchedEvent → Option SchedState
  | .iterate image time =>
      if image < cfg.numImages &&
         st.fences.getD st.currentFrame false &&
         crossWaitOk st image then
        some
          { currentFrame := (st.currentFrame + 1) % cfg.numSlots
            iter := st.iter + 1
            fences := st.fences.set st.currentFrame false
            imagesInFlight := st.imagesInFlight.set image (some st.currentFrame)
            outstanding := st.outstanding ++ [⟨st.currentFrame, image⟩]
            uniforms := st.uniforms.set image (some time) }
      else none
  | .gpuComplete slot =>
      if st.outstanding.any (fun sub => sub.slot == slot) then
        some
          { st with
            outstanding := st.outstanding.filter (fun sub => sub.slot != slot)
            fences := st.fences.set slot true }
      else none

/-- A run: apply a trace of events from a state; `none` when some event
in the trace is impossible. -/
def runEvents (cfg : SchedConfig) (st : SchedState) :
    List SchedEvent → Option SchedState
  | [] => some st
  | e :: rest =>
      match stepEvent cfg st e with
      | some st1 => runEvents cfg st1 rest
      | none => none

/-! ### Result handling in the loop body (main.cpp:1673-1753)

`vkWaitForFences` (main.cpp:1678), `vkAcquireNextImageKHR`
(main.cpp:1682), `vkMapMemory` (main.cpp:1698), `vkResetFences`
(main.cpp:1728) and `vkQueuePresentKHR` (main.cpp:1749) are called
without inspecting their returned `VkResult`; only `vkQueueSubmit`
(main.cpp:1731-1734) is checked, and a non-success there prints
"Failed to submit" and calls `abort()`. -/

/-- The `VkResult` values relevant to the loop body. -/
inductive VkResult where
  | success
  | suboptimalKHR
  | errorOutOfDateKHR
  | errorSurfaceLostKHR
  | errorDeviceLost
deriving DecidableEq, Repr

/-- The results the environment returns to one pass of the loop body. -/
structure IterResults where
  acquireResult : VkResult
  submitResult : VkResult
  presentResult : VkResult
deriving DecidableEq, Repr

/-- What one pass of the loop body does control-flow-wise. -/
inductive IterOutcome where
  | continues (nextFrame : Nat)
  | aborts (msg : String)
deriving DecidableEq, Repr

/-- Control flow of one pass of main.cpp:1673-1753 given the results
the driver returns: the acquisition result (main.cpp:1682) and the
presentation result (main.cpp:1749) are discarded — neither is
compared, branched on, or stored — so the pass aborts exactly when
`vkQueueSubmit` returns non-success (main.cpp:1731-1734), and otherwise
falls through to `currentFrame = (currentFrame + 1) %
MAX_FRAMES_IN_FLIGHT` (main.cpp:1752). -/
def loopBodyOutcome (numSlots currentFrame : Nat) (res : IterResults) :
    IterOutcome :=
  if res.submitResult != VkResult.success then
    .aborts "Failed to submit"
  else
    .continues ((currentFrame + 1) % numSlots)

/-! ### Helper lemmas on list update and lookup -/

theorem getD_set_self {α : Type} (l : List α) (i : Nat) (a d : α)
    (h : i < l.length) : (l.set i a).getD i d = a := by
  induction l generalizing i with
  | nil => simp at h
  | cons x xs ih =>
      cases i with
      | zero => simp [List.set, List.getD]
      | succ n =>
          simp only [List.set, List.getD_cons_succ]
          exact ih n (by simpa using h)

theorem getD_set_other {α : Type} (l : List α) (i j : Nat) (a d : α)
    (h : i ≠ j) : (l.set i a).getD j d = l.getD j d := by
  induction l generalizing i j with
  | nil => simp [List.set]
  | cons x xs ih =>
      cases i with
      | zero =>
          cases j with
          | zero => exact absurd rfl h
          | succ m => simp [List.set]
      | succ n =>
          cases j with
          | zero => simp [List.set]
          | succ m =>
              simp only [List.set, List.getD_cons_succ]
              exact ih n m (fun hc => h (by rw [hc]))

/-! ### Theorems -/

/-- C8: the requested swap-chain image count equals
`min(minImageCount + 1, maxImageCount)`, where `maxImageCount = 0`
means an unbounded upper bound, giving `minImageCount + 1`. -/
theorem chooseImageCount_eq_min (caps : SurfaceCaps) :
    chooseImageCount caps =
      if caps.maxImageCount = 0 then caps.minImageCount + 1
      else min (caps.minImageCount + 1) caps.maxImageCount := by
  unfold chooseImageCount
  by_cases h0 : caps.maxImageCount = 0
  · simp [h0]
  · have hpos : 0 < caps.maxImageCount := Nat.pos_of_ne_zero h0
    by_cases hgt : caps.minImageCount + 1 > caps.maxImageCount
    · simp [h0, hpos, hgt]
      omega
    · simp [h0, hpos, hgt]
      omega

/-- C7: when the surface reports the sentinel
(`currentExtent.width == UINT32_MAX`), the resolved extent is the
request clamped independently per axis into
`[minImageExtent, maxImageExtent]`, and equals the request when the
request is already in range; otherwise the surface's current extent is
used verbatim. -/
theorem selectExtent_clamps (caps : SurfaceCaps) (reqW reqH : Nat)
    (hw : caps.minImageExtent.width ≤ caps.maxImageExtent.width)
    (hh : caps.minImageExtent.height ≤ caps.maxImageExtent.height) :
    (caps.currentExtent.width = UINT32_MAX →
       (caps.minImageExtent.width ≤ (selectExtent caps reqW reqH).width ∧
        (selectExtent caps reqW reqH).width ≤ caps.maxImageExtent.width) ∧
       (caps.minImageExtent.height ≤ (selectExtent caps reqW reqH).height ∧
        (selectExtent caps reqW reqH).height ≤ caps.maxImageExtent.height) ∧
       (caps.minImageExtent.width ≤ reqW → reqW ≤ caps.maxImageExtent.width →
          (selectExtent caps reqW reqH).width = reqW) ∧
       (caps.minImageExtent.height ≤ reqH → reqH ≤ caps.maxImageExtent.height →
          (selectExtent caps reqW reqH).height = reqH)) ∧
    (caps.currentExtent.width ≠ UINT32_MAX →
       selectExtent caps reqW reqH = caps.currentExtent) := by
  unfold selectExtent
  constructor
  · intro hcur
    simp only [hcur, bne_self_eq_false, Bool.false_eq_true, if_false]
    refine ⟨⟨?_, ?_⟩, ⟨?_, ?_⟩, ?_, ?_⟩ <;> dsimp only <;>
      (try intro h1 h2) <;> omega
  · intro hcur
    simp [bne_iff_ne, hcur]

/-- C7 witness: Scenario D of the spec — sentinel extent, bounds
`min = (400, 400)`, `max = (1000, 1000)`; request `(800, 800)` resolves
to `(800, 800)` and request `(50, 50)` resolves to `(400, 400)`. -/
theorem selectExtent_clamps_witness :
    (selectExtent ⟨2, 0, ⟨4294967295, 4294967295⟩, ⟨400, 400⟩, ⟨1000, 1000⟩⟩
        800 800).width = 800 ∧
    (selectExtent ⟨2, 0, ⟨4294967295, 4294967295⟩, ⟨400, 400⟩, ⟨1000, 1000⟩⟩
        50 50).width = 400 := by
  have h := (selectExtent_clamps
      ⟨2, 0, ⟨4294967295, 4294967295⟩, ⟨400, 400⟩, ⟨1000, 1000⟩⟩
      800 800 (by decide) (by decide)).1 (by decide)
  exact ⟨h.2.2.1 (by decide) (by decide), by decide⟩

theorem selectPresentModeLoop_mailbox (modes : List Nat) (sel : Nat)
    (h : VK_PRESENT_MODE_MAILBOX_KHR ∈ modes) :
    selectPresentModeLoop sel modes = VK_PRESENT_MODE_MAILBOX_KHR := by
  induction modes generalizing sel with
  | nil => cases h
  | cons m rest ih =>
      unfold selectPresentModeLoop
      by_cases hm : m = VK_PRESENT_MODE_MAILBOX_KHR
      · simp [hm]
      · simp only [beq_iff_eq, hm, if_false]
        rcases List.mem_cons.mp h with hc | hc
        · exact absurd hc.symm hm
        · exact ih _ hc

theorem selectPresentModeLoop_no_mailbox (modes : List Nat) (sel : Nat)
    (h : VK_PRESENT_MODE_MAILBOX_KHR ∉ modes) :
    selectPresentModeLoop sel modes =
      if VK_PRESENT_MODE_FIFO_KHR ∈ modes then VK_PRESENT_MODE_FIFO_KHR
      else sel := by
  induction modes generalizing sel with
  | nil => simp [selectPresentModeLoop]
  | cons m rest ih =>
      have hm : m ≠ VK_PRESENT_MODE_MAILBOX_KHR :=
        fun e => h (e ▸ List.mem_cons_self m rest)
      have hrest : VK_PRESENT_MODE_MAILBOX_KHR ∉ rest :=
        fun e => h (List.mem_cons_of_mem m e)
      unfold selectPresentModeLoop
      simp only [beq_iff_eq, hm, if_false]
      rw [ih _ hrest]
      by_cases hf : m = VK_PRESENT_MODE_FIFO_KHR
      · subst hf
        simp [List.mem_cons]
      · have hne : VK_PRESENT_MODE_FIFO_KHR ≠ m := fun e => hf e.symm
        simp [List.mem_cons, hf, hne]

/-- C6: for a non-empty present-mode list, `VK_PRESENT_MODE_MAILBOX_KHR`
is selected whenever it appears anywhere; otherwise
`VK_PRESENT_MODE_FIFO_KHR` is selected when it appears; otherwise the
first list element is selected. -/
theorem selectPresentMode_preference (modes : List Nat) (h : modes ≠ []) :
    (VK_PRESENT_MODE_MAILBOX_KHR ∈ modes →
       selectPresentMode modes = VK_PRESENT_MODE_MAILBOX_KHR) ∧
    (VK_PRESENT_MODE_MAILBOX_KHR ∉ modes → VK_PRESENT_MODE_FIFO_KHR ∈ modes →
       selectPresentMode modes = VK_PRESENT_MODE_FIFO_KHR) ∧
    (VK_PRESENT_MODE_MAILBOX_KHR ∉ modes → VK_PRESENT_MODE_FIFO_KHR ∉ modes →
       selectPresentMode modes = modes.head h) := by
  refine ⟨?_, ?_, ?_⟩
  · intro hmem
    exact selectPresentModeLoop_mailbox modes _ hmem
  · intro hno hfifo
    unfold selectPresentMode
    rw [selectPresentModeLoop_no_mailbox modes _ hno]
    simp [hfifo]
  · intro hno hnofifo
    unfold selectPresentMode
    rw [selectPresentModeLoop_no_mailbox modes _ hno]
    simp only [hnofifo, if_false]
    cases modes with
    | nil => exact absurd rfl h
    | cons m rest => simp

/-- C6 witness: Scenario C of the spec — candidates
`[FIFO, MAILBOX]` select `MAILBOX` even though the fallback appears
first. -/
theorem selectPresentMode_preference_witness :
    selectPresentMode [VK_PRESENT_MODE_FIFO_KHR, VK_PRESENT_MODE_MAILBOX_KHR] =
      VK_PRESENT_MODE_MAILBOX_KHR :=
  (selectPresentMode_preference
      [VK_PRESENT_MODE_FIFO_KHR, VK_PRESENT_MODE_MAILBOX_KHR]
      (by decide)).1 (by decide)

/-- C9: in debug mode a requested layer is marked available iff some
enumerated layer name DIFFERS from it (the `strcmp` result is used as a
truth value directly), the pre-instance `abort()` fires exactly when
some requested layer is marked unavailable, and consequently the check
can pass although the requested layer is absent from the enumerated
list. -/
theorem validationLayerCheck_inverted (available requested : List String) :
    (∀ r ∈ requested,
       (layerMarkedAvailable available r = true ↔ ∃ l ∈ available, l ≠ r)) ∧
    (validationCheckAborts available requested = true ↔
       ∃ r ∈ requested, layerMarkedAvailable available r = false) ∧
    (∃ av rq lay, validationLayersAvailable av rq = true ∧
       lay ∈ rq ∧ lay ∉ av) := by
  refine ⟨?_, ?_, ?_⟩
  · intro r _hr
    simp [layerMarkedAvailable, List.any_eq_true, bne_iff_ne]
  · unfold validationCheckAborts validationLayersAvailable
    simp only [Bool.not_eq_true', List.all_eq_false]
    constructor
    · rintro ⟨r, hr, hfalse⟩
      exact ⟨r, hr, by simpa using hfalse⟩
    · rintro ⟨r, hr, hfalse⟩
      exact ⟨r, hr, by simpa using hfalse⟩
  · refine ⟨["VK_LAYER_other"], ["VK_LAYER_KHRONOS_validation"],
      "VK_LAYER_KHRONOS_validation", by decide, by decide, by decide⟩

/-- C9 witness: with only the layer name "VK_LAYER_other" enumerated,
the requested layer "VK_LAYER_KHRONOS_validation" is marked available
(the names differ), so the check passes although the layer is absent;
and with the requested layer as the only enumerated entry, the check
marks it unavailable. -/
theorem validationLayerCheck_inverted_witness :
    layerMarkedAvailable ["VK_LAYER_other"] "VK_LAYER_KHRONOS_validation" = true ∧
    validationCheckAborts ["VK_LAYER_KHRONOS_validation"]
      ["VK_LAYER_KHRONOS_validation"] = true := by
  constructor
  · exact ((validationLayerCheck_inverted ["VK_LAYER_other"]
      ["VK_LAYER_KHRONOS_validation"]).1 "VK_LAYER_KHRONOS_validation"
      (by decide)).mpr ⟨"VK_LAYER_other", by decide, by decide⟩
  · exact ((validationLayerCheck_inverted ["VK_LAYER_KHRONOS_validation"]
      ["VK_LAYER_KHRONOS_validation"]).2.1).mpr
      ⟨"VK_LAYER_KHRONOS_validation", by decide, by decide⟩

theorem selectPhysicalDevice_foldl_some (required : List String)
    (devs : List PhysDevice) (d : PhysDevice) :
    devs.foldl
      (fun acc dev =>
        if acc.isNone && isSuitable required dev then some dev else acc)
      (some d) = some d := by
  induction devs with
  | nil => rfl
  | cons x xs ih => simpa using ih

theorem selectPhysicalDevice_eq_find (required : List String)
    (devs : List PhysDevice) :
    selectPhysicalDevice required devs = devs.find? (isSuitable required) := by
  induction devs with
  | nil => rfl
  | cons d rest ih =>
      unfold selectPhysicalDevice
      by_cases hd : isSuitable required d = true
      · simp only [List.foldl_cons, Option.isNone_none, Bool.true_and, hd,
          if_true, List.find?_cons_of_pos _ hd]
        exact selectPhysicalDevice_foldl_some required rest d
      · simp only [List.foldl_cons, Option.isNone_none, Bool.true_and, hd,
          if_false, List.find?_cons_of_neg _ hd]
        exact ih

/-- C2: if `devs` has a device at position `i` satisfying all four
suitability predicates while every earlier position fails them, the
selection loop returns exactly that device — the first fit in
enumeration order, never a later one. -/
theorem selectPhysicalDevice_first_fit (required : List String)
    (devs : List PhysDevice) (i : Nat) (hi : i < devs.length)
    (hsuit : isSuitable required (devs.get ⟨i, hi⟩) = true)
    (hfirst : ∀ j (hj : j < i),
       isSuitable required (devs.get ⟨j, Nat.lt_trans hj hi⟩) = false) :
    selectPhysicalDevice required devs = some (devs.get ⟨i, hi⟩) := by
  rw [selectPhysicalDevice_eq_find]
  induction devs generalizing i with
  | nil => simp at hi
  | cons d rest ih =>
      cases i with
      | zero =>
          simp only [List.get] at hsuit
          simp [List.find?_cons_of_pos _ hsuit]
      | succ n =>
          have hd : isSuitable required d = false := hfirst 0 (Nat.succ_pos n)
          rw [List.find?_cons_of_neg _ (by simp [hd])]
          exact ih n (by simpa using hi) hsuit
            (fun j hj => hfirst (j + 1) (by omega))

/-- C2 witness: Scenario B of the spec — a first device missing the
required extension and a second fully compliant device; the compliant
second device is selected. -/
theorem selectPhysicalDevice_first_fit_witness :
    selectPhysicalDevice ["VK_KHR_swapchain"]
      [⟨[], [⟨true, true⟩], [⟨50, 0⟩], [2], [126]⟩,
       ⟨["VK_KHR_swapchain"], [⟨true, true⟩], [⟨50, 0⟩], [2], [126]⟩] =
    some ⟨["VK_KHR_swapchain"], [⟨true, true⟩], [⟨50, 0⟩], [2], [126]⟩ := by
  have h := selectPhysicalDevice_first_fit ["VK_KHR_swapchain"]
    [⟨[], [⟨true, true⟩], [⟨50, 0⟩], [2], [126]⟩,
     ⟨["VK_KHR_swapchain"], [⟨true, true⟩], [⟨50, 0⟩], [2], [126]⟩]
    1 (by decide) (by decide)
    (by
      intro j hj
      have hj0 : j = 0 := by omega
      subst hj0
      rfl)
  exact h

/-- The queue-family indices the spec describes in §4.1(b): the FIRST
index satisfying each predicate, each recorded independently. This
follows the spec's words, for comparison with `scanQueueFamilies`,
which is translated from the code. -/
def firstIndexQueueFamilies (fams : List QueueFamilyProps) :
    QueueFamilyIndices :=
  { graphicsFamily := fams.findIdx? (fun f => f.supportsGraphics)
    presentFamily := fams.findIdx? (fun f => f.presentSupport) }

/-- C3 counterexample: with two families both supporting graphics and
presentation, the scan records index 1 for both roles, while the first
index satisfying each predicate is 0 — the code records the LAST
matching index, not the first. -/
theorem scanQueueFamilies_not_first :
    scanQueueFamilies [⟨true, true⟩, ⟨true, true⟩] ≠
      firstIndexQueueFamilies [⟨true, true⟩, ⟨true, true⟩] ∧
    scanQueueFamilies [⟨true, true⟩, ⟨true, true⟩] =
      { graphicsFamily := some 1, presentFamily := some 1 } ∧
    firstIndexQueueFamilies [⟨true, true⟩, ⟨true, true⟩] =
      { graphicsFamily := some 0, presentFamily := some 0 } := by
  refine ⟨?_, ?_, ?_⟩ <;> decide

/-- The LAST index of `fams` whose entry satisfies `p`, written from
the amended claim's words: the last matching entry of the indexed
list. -/
def lastIndexWhere (p : QueueFamilyProps → Bool)
    (fams : List QueueFamilyProps) : Option Nat :=
  (fams.enum.reverse.find? (fun q => p q.2)).map Prod.fst

theorem scanFold_graphics (l : List (Nat × QueueFamilyProps))
    (acc : QueueFamilyIndices) :
    (l.foldl (fun a p => scanStep a p.1 p.2) acc).graphicsFamily =
      l.foldl
        (fun g p => if p.2.supportsGraphics then some p.1 else g)
        acc.graphicsFamily := by
  induction l generalizing acc with
  | nil => rfl
  | cons x xs ih =>
      simp only [List.foldl_cons]
      rw [ih]
      congr 1
      unfold scanStep
      by_cases hg : x.2.supportsGraphics = true <;>
        by_cases hp : x.2.presentSupport = true <;> simp [hg, hp]

theorem scanFold_present (l : List (Nat × QueueFamilyProps))
    (acc : QueueFamilyIndices) :
    (l.foldl (fun a p => scanStep a p.1 p.2) acc).presentFamily =
      l.foldl
        (fun g p => if p.2.presentSupport then some p.1 else g)
        acc.presentFamily := by
  induction l generalizing acc with
  | nil => rfl
  | cons x xs ih =>
      simp only [List.foldl_cons]
      rw [ih]
      congr 1
      unfold scanStep
      by_cases hg : x.2.supportsGraphics = true <;>
        by_cases hp : x.2.presentSupport = true <;> simp [hg, hp]

theorem foldl_overwrite (p : QueueFamilyProps → Bool)
    (l : List (Nat × QueueFamilyProps)) (a : Option Nat) :
    l.foldl (fun g q => if p q.2 then some q.1 else g) a =
      (l.reverse.find? (fun q => p q.2)).elim a (fun q => some q.1) := by
  induction l using List.reverseRecOn generalizing a with
  | nil => rfl
  | append_singleton xs x ih =>
      rw [List.foldl_append, List.reverse_append]
      simp only [List.foldl_cons, List.foldl_nil, List.reverse_cons,
        List.reverse_nil, List.nil_append, List.singleton_append,
        List.find?_cons]
      by_cases hx : p x.2 = true
      · simp [hx]
      · simp only [hx, Bool.false_eq_true, if_false]
        exact ih a

/-- C3 amended: the queue-family scan records, independently for each
role, the LAST index whose family satisfies that role's predicate (each
match overwrites the previous one), not the first. -/
theorem scanQueueFamilies_records_last (fams : List QueueFamilyProps) :
    (scanQueueFamilies fams).graphicsFamily =
      lastIndexWhere (fun f => f.supportsGraphics) fams ∧
    (scanQueueFamilies fams).presentFamily =
      lastIndexWhere (fun f => f.presentSupport) fams := by
  constructor
  · rw [scanQueueFamilies, scanFold_graphics, foldl_overwrite]
    unfold lastIndexWhere
    cases fams.enum.reverse.find? (fun q => q.2.supportsGraphics) <;> rfl
  · rw [scanQueueFamilies, scanFold_present, foldl_overwrite]
    unfold lastIndexWhere
    cases fams.enum.reverse.find? (fun q => q.2.presentSupport) <;> rfl

/-- C4 counterexample: a pass of the loop body in which the acquisition
call fails (surface out of date) while submission succeeds does NOT
terminate the program — it falls through and advances the frame index. -/
theorem loopBody_acquireFailure_not_fatal :
    loopBodyOutcome MAX_FRAMES_IN_FLIGHT 0
        ⟨VkResult.errorOutOfDateKHR, VkResult.success, VkResult.success⟩ =
      IterOutcome.continues 1 ∧
    VkResult.errorOutOfDateKHR ≠ VkResult.success := by
  refine ⟨?_, ?_⟩ <;> decide

/-- C4 amended: the acquisition and presentation results are ignored —
the outcome of a pass is unchanged by them, acquisition is not retried
and does not terminate the program; the pass aborts exactly when the
queue submission fails, and otherwise advances the frame index. -/
theorem loopBody_ignores_acquireResult (numSlots currentFrame : Nat)
    (res : IterResults) :
    (loopBodyOutcome numSlots currentFrame res =
       loopBodyOutcome numSlots currentFrame
         { res with acquireResult := VkResult.success
                    presentResult := VkResult.success }) ∧
    (loopBodyOutcome numSlots currentFrame res =
        IterOutcome.aborts "Failed to submit" ↔
      res.submitResult ≠ VkResult.success) ∧
    (res.submitResult = VkResult.success →
       loopBodyOutcome numSlots currentFrame res =
         IterOutcome.continues ((currentFrame + 1) % numSlots)) := by
  unfold loopBodyOutcome
  by_cases h : res.submitResult = VkResult.success
  · simp [h]
  · simp [h, bne_iff_ne]

/-- C4 amended witness: with every driver call succeeding from frame 0
of a 5-slot scheduler, the pass continues to frame 1. -/
theorem loopBody_ignores_acquireResult_witness :
    loopBodyOutcome 5 0 ⟨VkResult.success, VkResult.success, VkResult.success⟩ =
      IterOutcome.continues 1 :=
  (loopBody_ignores_acquireResult 5 0
      ⟨VkResult.success, VkResult.success, VkResult.success⟩).2.2 rfl

/-! ### Scheduler invariants -/

/-- The well-formedness invariant of the scheduler state: array lengths
match the configuration, the frame index is in range, no two
outstanding submissions share a frame slot, and every outstanding
submission has its slot fence unsignaled and is the registered user of
its presentation target in `imagesInFlight`. -/
def WF (cfg : SchedConfig) (st : SchedState) : Prop :=
  st.fences.length = cfg.numSlots ∧
  st.imagesInFlight.length = cfg.numImages ∧
  st.uniforms.length = cfg.numImages ∧
  st.currentFrame < cfg.numSlots ∧
  (st.outstanding.map Submission.slot).Nodup ∧
  (∀ sub ∈ st.outstanding,
     sub.slot < cfg.numSlots ∧
     sub.image < cfg.numImages ∧
     st.fences.getD sub.slot false = false ∧
     st.imagesInFlight.getD sub.image none = some sub.slot)

theorem wf_init (cfg : SchedConfig) (hS : 0 < cfg.numSlots) :
    WF cfg (initState cfg) := by
  refine ⟨by simp [initState], by simp [initState], by simp [initState],
    hS, by simp [initState], ?_⟩
  intro sub hsub
  simp [initState] at hsub

theorem wf_step (cfg : SchedConfig) (st st1 : SchedState) (e : SchedEvent)
    (hwf : WF cfg st) (h : stepEvent cfg st e = some st1) : WF cfg st1 := by
  obtain ⟨hlf, hli, hlu, hcf, hnd, hsub⟩ := hwf
  cases e with
  | iterate image time =>
      simp only [stepEvent] at h
      split at h
      case isFalse => cases h
      case isTrue hcond =>
        have hc2 := hcond
        simp only [Bool.and_eq_true, decide_eq_true_eq] at hc2
        obtain ⟨⟨himage, hthr⟩, hcw⟩ := hc2
        -- no outstanding submission occupies the current slot:
        -- its fence is signaled, an occupied slot's fence is not
        have hfree : ∀ sub ∈ st.outstanding, sub.slot ≠ st.currentFrame := by
          intro sub hs heq
          have h3 := (hsub sub hs).2.2.1
          rw [heq, hthr] at h3
          exact Bool.noConfusion h3
        -- no outstanding submission occupies the acquired image:
        -- the cross-wait saw its fence signaled, contradiction
        have himg_free : ∀ sub ∈ st.outstanding, sub.image ≠ image := by
          intro sub hs heq
          have hrec := (hsub sub hs).2.2.2
          have hfence := (hsub sub hs).2.2.1
          rw [heq] at hrec
          unfold crossWaitOk at hcw
          rw [hrec] at hcw
          simp only [] at hcw
          rw [hfence] at hcw
          exact Bool.noConfusion hcw
        cases h
        refine ⟨by simpa using hlf, by simpa using hli, by simpa using hlu,
          Nat.mod_lt _ (Nat.lt_of_le_of_lt (Nat.zero_le _) hcf), ?_, ?_⟩
        · simp only [List.map_append, List.map_cons, List.map_nil]
          rw [List.nodup_append]
          refine ⟨hnd, List.nodup_singleton _, ?_⟩
          intro a ha hb
          simp only [List.mem_singleton] at hb
          subst hb
          obtain ⟨sub, hs, hslot⟩ := List.mem_map.mp ha
          exact hfree sub hs hslot
        · intro sub hs
          rcases List.mem_append.mp hs with hold | hnew
          · obtain ⟨h1, h2, h3, h4⟩ := hsub sub hold
            refine ⟨h1, h2, ?_, ?_⟩
            · rw [getD_set_other _ _ _ _ _
                (fun hc => hfree sub hold hc.symm)]
              exact h3
            · rw [getD_set_other _ _ _ _ _
                (fun hc => himg_free sub hold hc.symm)]
              exact h4
          · simp only [List.mem_singleton] at hnew
            subst hnew
            refine ⟨hcf, himage, ?_, ?_⟩
            · exact getD_set_self _ _ _ _ (hlf ▸ hcf)
            · exact getD_set_self _ _ _ _ (hli ▸ himage)
  | gpuComplete slot =>
      simp only [stepEvent] at h
      split at h
      case isFalse => cases h
      case isTrue hany =>
        cases h
        refine ⟨by simpa using hlf, by simpa using hli, by simpa using hlu,
          hcf, ?_, ?_⟩
        · exact List.Nodup.sublist
            ((List.filter_sublist _).map Submission.slot) hnd
        · intro sub hs
          have hs2 : sub ∈ List.filter (fun x => x.slot != slot)
              st.outstanding := hs
          have hmem := List.mem_of_mem_filter hs2
          have hkeep := List.of_mem_filter hs2
          have hne : sub.slot ≠ slot := by simpa using hkeep
          obtain ⟨h1, h2, h3, h4⟩ := hsub sub hmem
          refine ⟨h1, h2, ?_, h4⟩
          rw [getD_set_other _ _ _ _ _ (Ne.symm hne)]
          exact h3

theorem wf_run (cfg : SchedConfig) (tr : List SchedEvent)
    (st0 st : SchedState) (hwf : WF cfg st0)
    (h : runEvents cfg st0 tr = some st) : WF cfg st := by
  induction tr generalizing st0 with
  | nil =>
      unfold runEvents at h
      cases h
      exact hwf
  | cons e rest ih =>
      unfold runEvents at h
      cases hstep : stepEvent cfg st0 e with
      | none => rw [hstep] at h; cases h
      | some st1 =>
          rw [hstep] at h
          exact ih st1 (wf_step cfg st0 st1 e hwf hstep) h

theorem getD_replicate_lt {α : Type} (n i : Nat) (a d : α) (h : i < n) :
    (List.replicate n a).getD i d = a := by
  induction n generalizing i with
  | zero => omega
  | succ m ih =>
      cases i with
      | zero => rfl
      | succ k => exact ih k (by omega)

theorem getD_replicate_self {α : Type} (n i : Nat) (a : α) :
    (List.replicate n a).getD i a = a := by
  induction n generalizing i with
  | zero => cases i <;> rfl
  | succ m ih =>
      cases i with
      | zero => rfl
      | succ k => exact ih k

/-- The frame-counter invariant: `currentFrame` is the iteration count
modulo the slot count, and a slot that no iteration has used yet still
holds its creation-time signaled fence. -/
def FrameInv (cfg : SchedConfig) (st : SchedState) : Prop :=
  st.currentFrame = st.iter % cfg.numSlots ∧
  (∀ j, st.iter ≤ j → j < cfg.numSlots → st.fences.getD j false = true)

theorem frame_inv_step (cfg : SchedConfig) (st st1 : SchedState)
    (e : SchedEvent) (hwf : WF cfg st) (hinv : FrameInv cfg st)
    (h : stepEvent cfg st e = some st1) : FrameInv cfg st1 := by
  obtain ⟨hlf, hli, hlu, hcf, hnd, hsub⟩ := hwf
  obtain ⟨hmod, hfresh⟩ := hinv
  cases e with
  | iterate image time =>
      simp only [stepEvent] at h
      split at h
      case isFalse => cases h
      case isTrue hcond =>
        cases h
        constructor
        · show (st.currentFrame + 1) % cfg.numSlots =
            (st.iter + 1) % cfg.numSlots
          rw [hmod]
          exact (Nat.mod_modEq st.iter cfg.numSlots).add_right 1
        · intro j hj hjS
          have hj2 : st.iter + 1 ≤ j := hj
          show (st.fences.set st.currentFrame false).getD j false = true
          have hlt : st.currentFrame < j := by
            rw [hmod]
            exact Nat.lt_of_le_of_lt (Nat.mod_le _ _) (by omega)
          rw [getD_set_other _ _ _ _ _ (by omega)]
          exact hfresh j (by omega) hjS
  | gpuComplete slot =>
      simp only [stepEvent] at h
      split at h
      case isFalse => cases h
      case isTrue hany =>
        obtain ⟨sub0, hs0, heq0⟩ := List.any_eq_true.mp hany
        have hslot0 : sub0.slot = slot := by simpa using heq0
        have hlt : slot < cfg.numSlots := hslot0 ▸ (hsub sub0 hs0).1
        cases h
        refine ⟨hmod, ?_⟩
        intro j hj hjS
        show (st.fences.set slot true).getD j false = true
        by_cases hsj : slot = j
        · subst hsj
          exact getD_set_self _ _ _ _ (hlf ▸ hlt)
        · rw [getD_set_other _ _ _ _ _ hsj]
          exact hfresh j hj hjS

theorem inv_run_from (cfg : SchedConfig) (tr : List SchedEvent)
    (st0 st : SchedState) (hwf : WF cfg st0) (hinv : FrameInv cfg st0)
    (h : runEvents cfg st0 tr = some st) : WF cfg st ∧ FrameInv cfg st := by
  induction tr generalizing st0 with
  | nil =>
      unfold runEvents at h
      cases h
      exact ⟨hwf, hinv⟩
  | cons e rest ih =>
      unfold runEvents at h
      cases hstep : stepEvent cfg st0 e with
      | none => rw [hstep] at h; cases h
      | some st1 =>
          rw [hstep] at h
          exact ih st1 (wf_step cfg st0 st1 e hwf hstep)
            (frame_inv_step cfg st0 st1 e hwf hinv hstep) h

theorem frame_inv_init (cfg : SchedConfig) : FrameInv cfg (initState cfg) := by
  constructor
  · show 0 = 0 % cfg.numSlots
    rw [Nat.zero_mod]
  · intro j _hj hjS
    show (List.replicate cfg.numSlots fenceCreatedSignaled).getD j false = true
    rw [getD_replicate_lt _ _ _ _ hjS]
    rfl

/-- Whether an event is a loop iteration that acquires image `i`. -/
def claimsImage (i : Nat) : SchedEvent → Bool
  | SchedEvent.iterate k _ => k == i
  | SchedEvent.gpuComplete _ => false

theorem images_untouched (cfg : SchedConfig) (tr : List SchedEvent)
    (st0 st : SchedState) (i : Nat)
    (h : runEvents cfg st0 tr = some st)
    (hcount : tr.countP (claimsImage i) = 0)
    (h0 : st0.imagesInFlight.getD i none = none) :
    st.imagesInFlight.getD i none = none := by
  induction tr generalizing st0 with
  | nil =>
      unfold runEvents at h
      cases h
      exact h0
  | cons e rest ih =>
      rw [List.countP_cons] at hcount
      have hpe : claimsImage i e = false := by
        cases hq : claimsImage i e
        · rfl
        · rw [hq] at hcount
          simp at hcount
      rw [hpe] at hcount
      simp only [Bool.false_eq_true, if_false, Nat.add_zero] at hcount
      have hrest : rest.countP (claimsImage i) = 0 := hcount
      unfold runEvents at h
      cases hstep : stepEvent cfg st0 e with
      | none => rw [hstep] at h; cases h
      | some st1 =>
          rw [hstep] at h
          refine ih st1 h hrest ?_
          cases e with
          | iterate k t =>
              have hk : k ≠ i := by simpa [claimsImage] using hpe
              simp only [stepEvent] at hstep
              split at hstep
              case isFalse => cases hstep
              case isTrue =>
                cases hstep
                show (st0.imagesInFlight.set k (some st0.currentFrame)).getD
                  i none = none
                rw [getD_set_other _ _ _ _ _ hk]
                exact h0
          | gpuComplete s =>
              simp only [stepEvent] at hstep
              split at hstep
              case isFalse => cases hstep
              case isTrue =>
                cases hstep
                exact h0

/-- C1: in every run of the Frame Scheduler with `numSlots` frame
slots, at most `numSlots` submissions are outstanding (unfenced) at any
instant; no two outstanding submissions target the same presentation
index; and whenever an iteration can proceed on an image whose
`imagesInFlight` entry names the fence of slot `j`, that fence's
submission has already retired (the cross-wait on
`imagesInFlight[imageIndex]` was satisfied before the target is
reused). -/
theorem scheduler_bounded_inflight (cfg : SchedConfig)
    (hS : 0 < cfg.numSlots) (tr : List SchedEvent) (st : SchedState)
    (h : runEvents cfg (initState cfg) tr = some st) :
    st.outstanding.length ≤ cfg.numSlots ∧
    (∀ s1 ∈ st.outstanding, ∀ s2 ∈ st.outstanding,
       s1.image = s2.image → s1 = s2) ∧
    (∀ image time st1,
       stepEvent cfg st (SchedEvent.iterate image time) = some st1 →
       ∀ j, st.imagesInFlight.getD image none = some j →
         ∀ sub ∈ st.outstanding, sub.slot ≠ j) := by
  have hwf := wf_run cfg tr (initState cfg) st (wf_init cfg hS) h
  obtain ⟨hlf, hli, hlu, hcf, hnd, hsub⟩ := hwf
  refine ⟨?_, ?_, ?_⟩
  · have hsubset : (st.outstanding.map Submission.slot) ⊆
        List.range cfg.numSlots := by
      intro a ha
      obtain ⟨sub, hs, hsl⟩ := List.mem_map.mp ha
      exact List.mem_range.mpr (hsl ▸ (hsub sub hs).1)
    have hlen := (List.subperm_of_subset hnd hsubset).length_le
    rw [List.length_map, List.length_range] at hlen
    exact hlen
  · intro s1 hs1 s2 hs2 himg
    have hr1 := (hsub s1 hs1).2.2.2
    have hr2 := (hsub s2 hs2).2.2.2
    rw [himg, hr2] at hr1
    have hslot : s1.slot = s2.slot := (Option.some_injective _ hr1).symm
    exact List.inj_on_of_nodup_map hnd hs1 hs2 hslot
  · intro image time st1 hstep j hrec sub hs heq
    simp only [stepEvent] at hstep
    split at hstep
    case isFalse => cases hstep
    case isTrue hcond =>
      have hc2 := hcond
      simp only [Bool.and_eq_true, decide_eq_true_eq] at hc2
      obtain ⟨⟨_himage, _hthr⟩, hcw⟩ := hc2
      unfold crossWaitOk at hcw
      rw [hrec] at hcw
      simp only [] at hcw
      have hfence := (hsub sub hs).2.2.1
      rw [heq] at hfence
      rw [hfence] at hcw
      exact Bool.noConfusion hcw

/-- A sample configuration: 2 frame slots, 3 swap-chain images. -/
def sampleCfg : SchedConfig := ⟨2, 3⟩

/-- The state after one loop iteration acquiring image 0 at time 0. -/
def stateAfterOne : SchedState :=
  { currentFrame := 1
    iter := 1
    fences := [false, true]
    imagesInFlight := [some 0, none, none]
    outstanding := [⟨0, 0⟩]
    uniforms := [some 0, none, none] }

/-- The state after two iterations: image 0 at time 0, image 1 at
time 5; both slots now carry an outstanding submission. -/
def stateAfterTwo : SchedState :=
  { currentFrame := 0
    iter := 2
    fences := [false, false]
    imagesInFlight := [some 0, some 1, none]
    outstanding := [⟨0, 0⟩, ⟨1, 1⟩]
    uniforms := [some 0, some 5, none] }

/-- C1 witness: two iterations from the initial state of a 2-slot,
3-image scheduler leave exactly 2 ≤ 2 outstanding submissions,
targeting distinct images. -/
theorem scheduler_bounded_inflight_witness :
    runEvents sampleCfg (initState sampleCfg)
        [SchedEvent.iterate 0 0, SchedEvent.iterate 1 5] =
      some stateAfterTwo ∧
    stateAfterTwo.outstanding.length ≤ sampleCfg.numSlots := by
  have hrun : runEvents sampleCfg (initState sampleCfg)
      [SchedEvent.iterate 0 0, SchedEvent.iterate 1 5] =
        some stateAfterTwo := by decide
  exact ⟨hrun,
    (scheduler_bounded_inflight sampleCfg (by decide) _ stateAfterTwo hrun).1⟩

/-- C5: in every reachable scheduler state, an iteration acquiring
`image` at elapsed time `time` writes the payload of `time` into the
uniform buffer of `image` (the acquired presentation target, which
need not equal `currentFrame`), and leaves the uniform buffer of every
other presentation target — in particular the one indexed by
`currentFrame` when it differs — unchanged. -/
theorem uniform_write_by_image (cfg : SchedConfig) (hS : 0 < cfg.numSlots)
    (tr : List SchedEvent) (st : SchedState)
    (h : runEvents cfg (initState cfg) tr = some st)
    (image time : Nat) (st1 : SchedState)
    (hstep : stepEvent cfg st (SchedEvent.iterate image time) = some st1) :
    st1.uniforms.getD image none = some time ∧
    (∀ k, k ≠ image → st1.uniforms.getD k none = st.uniforms.getD k none) ∧
    (st.currentFrame ≠ image →
       st1.uniforms.getD st.currentFrame none =
         st.uniforms.getD st.currentFrame none) := by
  have hwf := wf_run cfg tr (initState cfg) st (wf_init cfg hS) h
  obtain ⟨hlf, hli, hlu, hcf, hnd, hsub⟩ := hwf
  simp only [stepEvent] at hstep
  split at hstep
  case isFalse => cases hstep
  case isTrue hcond =>
    have hc2 := hcond
    simp only [Bool.and_eq_true, decide_eq_true_eq] at hc2
    obtain ⟨⟨himage, _hthr⟩, _hcw⟩ := hc2
    cases hstep
    refine ⟨?_, ?_, ?_⟩
    · show (st.uniforms.set image (some time)).getD image none = some time
      exact getD_set_self _ _ _ _ (hlu ▸ himage)
    · intro k hk
      show (st.uniforms.set image (some time)).getD k none =
        st.uniforms.getD k none
      exact getD_set_other _ _ _ _ _ (fun hc => hk hc.symm)
    · intro hne
      show (st.uniforms.set image (some time)).getD st.currentFrame none =
        st.uniforms.getD st.currentFrame none
      exact getD_set_other _ _ _ _ _ (fun hc => hne hc.symm)

/-- The state reached by one iteration acquiring image 1 (while
`currentFrame` is 0) at time 7. -/
def stateUniformDemo : SchedState :=
  { currentFrame := 1
    iter := 1
    fences := [false, true]
    imagesInFlight := [none, some 0, none]
    outstanding := [⟨0, 1⟩]
    uniforms := [none, some 7, none] }

/-- C5 witness: with `currentFrame = 0`, acquiring image 1 writes the
payload of time 7 into target 1's uniform buffer and leaves target 0's
(the `currentFrame`-indexed one) untouched. -/
theorem uniform_write_by_image_witness :
    stepEvent sampleCfg (initState sampleCfg) (SchedEvent.iterate 1 7) =
      some stateUniformDemo ∧
    stateUniformDemo.uniforms.getD 1 none = some 7 ∧
    stateUniformDemo.uniforms.getD 0 none = none := by
  have hstep : stepEvent sampleCfg (initState sampleCfg)
      (SchedEvent.iterate 1 7) = some stateUniformDemo := by decide
  have h := uniform_write_by_image sampleCfg (by decide) []
    (initState sampleCfg) rfl 1 7 stateUniformDemo hstep
  refine ⟨hstep, h.1, ?_⟩
  rw [h.2.1 0 (by decide)]
  rfl

/-- C10: the frame-slot fences are created in the signaled state and
every `imagesInFlight` entry starts as the null handle; consequently,
in any run, a slot not yet used by any iteration still has a signaled
fence when its first iteration reaches the Throttle wait (so the wait
returns with no prior submission for that slot), and a presentation
target no iteration has claimed still has a null `imagesInFlight`
entry (so its first use skips the cross-wait). -/
theorem initial_sync_objects (cfg : SchedConfig) (hS : 0 < cfg.numSlots)
    (tr : List SchedEvent) (st : SchedState)
    (h : runEvents cfg (initState cfg) tr = some st) :
    fenceCreatedSignaled = true ∧
    (initState cfg).fences = List.replicate cfg.numSlots true ∧
    (initState cfg).imagesInFlight = List.replicate cfg.numImages none ∧
    (∀ j, st.iter ≤ j → j < cfg.numSlots → st.fences.getD j false = true) ∧
    (∀ i, tr.countP (claimsImage i) = 0 →
       st.imagesInFlight.getD i none = none) := by
  have hinv := inv_run_from cfg tr (initState cfg) st (wf_init cfg hS)
    (frame_inv_init cfg) h
  refine ⟨rfl, rfl, rfl, hinv.2.2, ?_⟩
  intro i hcount
  refine images_untouched cfg tr (initState cfg) st i h hcount ?_
  show (List.replicate cfg.numImages (none : Option Nat)).getD i none = none
  exact getD_replicate_self _ _ _

/-- C10 witness: after one iteration (which used slot 0 and claimed
image 0), slot 1's fence still holds its creation-time signaled state
and image 2's `imagesInFlight` entry is still the null handle. -/
theorem initial_sync_objects_witness :
    runEvents sampleCfg (initState sampleCfg) [SchedEvent.iterate 0 0] =
      some stateAfterOne ∧
    stateAfterOne.fences.getD 1 false = true ∧
    stateAfterOne.imagesInFlight.getD 2 none = none := by
  have hrun : runEvents sampleCfg (initState sampleCfg)
      [SchedEvent.iterate 0 0] = some stateAfterOne := by decide
  have h := initial_sync_objects sampleCfg (by decide) _ stateAfterOne hrun
  exact ⟨hrun, h.2.2.2.1 1 (by decide) (by decide),
    h.2.2.2.2 2 (by decide)⟩

end VKExample
